import Mathlib

/-
Verification of the `osmosis` EMD binding (`src/osmosis/emd/pyemd.c`).

The repository ships only the CPython marshalling shim `compute_emd`; the
solver `emd()` (from `emd.c` / `emd.h`) is not part of the sources.  The shim
is embedded faithfully below as an executable function over a small model of
Python values; the solver is modelled from the spec as the optimal cost of a
feasible transportation flow.

Python object values are modelled exactly: numeric values are rationals
(exact arithmetic; the 32-bit narrowing of the C arrays is outside this
embedding), sequences are finite lists, and every other object is `noneObj`.
-/

/-- Model of a CPython object as seen by the shim: an int object, a float
object, a sequence, or any other object (modelled by `noneObj`). -/
inductive PyVal where
  | intObj : Int → PyVal
  | floatObj : ℚ → PyVal
  | seqObj : List PyVal → PyVal
  | noneObj : PyVal

/-- Model of the Python exceptions the shim can set; `compute_emd` only ever
sets `TypeError` via `PyErr_SetString(PyExc_TypeError, msg)`. -/
inductive PyErr where
  | typeError : String → PyErr
  deriving DecidableEq

/-- Model of `PySequence_Check`: true exactly on sequence objects. -/
def pySequenceCheck : PyVal → Bool
  | .seqObj _ => true
  | _ => false

/-- Model of `PySequence_Size`: the length for sequences, `-1` (the CPython
error return) otherwise. -/
def pySequenceSize : PyVal → Int
  | .seqObj l => (l.length : Int)
  | _ => -1

/-- Model of `PySequence_GetItem`: `some` of the element for an in-range
index of a sequence, `none` (the CPython `NULL` return) otherwise. -/
def pySequenceGetItem : PyVal → ℕ → Option PyVal
  | .seqObj l, i => l[i]?
  | _, _ => none

/-- Model of `PyFloat_Check` on a `PySequence_GetItem` result: a `NULL`
result or a non-float object is not a float object. -/
def pyFloatCheckO : Option PyVal → Bool
  | some (.floatObj _) => true
  | _ => false

/-- Model of `PyInt_Check` (aliased to `PyLong_Check` on Python 3) on a
`PySequence_GetItem` result. -/
def pyIntCheckO : Option PyVal → Bool
  | some (.intObj _) => true
  | _ => false

/-- Model of `PyFloat_AsDouble` on a numeric object; `-1` is the CPython
error return, produced here on non-numeric arguments (the shim only calls it
after the float/int check has passed). -/
def pyFloatAsDouble : PyVal → ℚ
  | .intObj k => (k : ℚ)
  | .floatObj q => q
  | _ => -1

/-- Model of `PyFloat_AsDouble` applied to a `PySequence_GetItem` result. -/
def pyFloatAsDoubleO : Option PyVal → ℚ
  | some v => pyFloatAsDouble v
  | none => -1

/-- Convenience predicate: the element would pass the shim check
`PyFloat_Check(item) || PyInt_Check(item)`. -/
def isNum (v : PyVal) : Bool := pyFloatCheckO (some v) || pyIntCheckO (some v)

/-- One element-reading loop of `compute_emd` (`pyemd.c` lines 56-87): for
`k` indices starting at `i`, fetch `PySequence_GetItem obj i`, raise
`TypeError msg` when the item is neither a float nor an int object, and
otherwise store `PyFloat_AsDouble item` into the output array. -/
def readLoop (obj : PyVal) (msg : String) : ℕ → ℕ → Except PyErr (List ℚ)
  | _, 0 => .ok []
  | i, k + 1 =>
    let item := pySequenceGetItem obj i
    if !pyFloatCheckO item && !pyIntCheckO item then
      .error (.typeError msg)
    else
      match readLoop obj msg (i + 1) k with
      | .ok rest => .ok (pyFloatAsDoubleO item :: rest)
      | .error e => .error e

/-- Embedding of `compute_emd` (`pyemd.c` lines 29-95) up to the call of the
solver `emd()`: the argument validation and marshalling.  On success it
returns the three arrays `w1`, `w2`, `c` that line 97 hands to `emd()`; an
`.error` result means the shim sets the exception and returns `NULL` before
the solver is invoked. -/
def compute_emd_marshal (weight1 weight2 cost : PyVal) :
    Except PyErr (List ℚ × List ℚ × List ℚ) :=
  if !pySequenceCheck weight1 then .error (.typeError "weight1 must be a sequence")
  else if !pySequenceCheck weight2 then .error (.typeError "weight2 must be a sequence")
  else
    let length1 : Int := pySequenceSize weight1
    let length2 : Int := pySequenceSize weight2
    if pySequenceSize weight1 ≠ length1 then
      .error (.typeError "feature1 and weight1 must be the same")
    else if pySequenceSize weight2 ≠ length2 then
      .error (.typeError "feature2 and weight2 must be the same")
    else
      match readLoop weight1 "w1 should be a sequence of numbers" 0 length1.toNat with
      | .error e => .error e
      | .ok w1 =>
        match readLoop weight2 "w2 should be a sequence of numbers" 0 length2.toNat with
        | .error e => .error e
        | .ok w2 =>
          match readLoop cost "cost should be a sequence of numbers" 0
              (length1 * length2).toNat with
          | .error e => .error e
          | .ok c => .ok (w1, w2, c)

/-- Modelled from the spec: the total transported mass of a flow between `n`
supply bins and `m` demand bins. -/
def totalFlow (n m : ℕ) (f : ℕ → ℕ → ℚ) : ℚ :=
  ∑ i ∈ Finset.range n, ∑ j ∈ Finset.range m, f i j

/-- Modelled from the spec: the total cost `Σ flow × cost` of a flow against
a row-major flattened `n × m` cost matrix `c`. -/
def totalCost (n m : ℕ) (c : List ℚ) (f : ℕ → ℕ → ℚ) : ℚ :=
  ∑ i ∈ Finset.range n, ∑ j ∈ Finset.range m, f i j * c.getD (i * m + j) 0

/-- Modelled from the spec (section 3 invariant): a feasible flow between the
weight vectors `w1` and `w2` — non-negative, each supply bin ships at most
its weight, each demand bin receives at most its weight, and the total flow
equals `min (total supply) (total demand)`. -/
structure Feasible (w1 w2 : List ℚ) (f : ℕ → ℕ → ℚ) : Prop where
  nonneg : ∀ i j, 0 ≤ f i j
  rowSum : ∀ i < w1.length, (∑ j ∈ Finset.range w2.length, f i j) ≤ w1.getD i 0
  colSum : ∀ j < w2.length, (∑ i ∈ Finset.range w1.length, f i j) ≤ w2.getD j 0
  total : totalFlow w1.length w2.length f = min w1.sum w2.sum

/-- Modelled from the spec: the solver `emd()` (from `emd.c` / `emd.h`, not
among the repository sources) computes the minimum total cost over feasible
flows; `IsEMD w1 w2 c d` states that `d` is that optimum. -/
def IsEMD (w1 w2 c : List ℚ) (d : ℚ) : Prop :=
  (∃ f, Feasible w1 w2 f ∧ totalCost w1.length w2.length c f = d) ∧
  ∀ f, Feasible w1 w2 f → d ≤ totalCost w1.length w2.length c f

/-- Modelled from the spec: the full behaviour of a `compute_emd` call, with
the missing solver `emd()` modelled by `IsEMD`.  The call relates the three
raw arguments to a result `r`: either the shim raises an error before the
solver runs, or the shim marshals the three arrays, the solver finds the
optimal cost `d`, and the call returns `d`. -/
def ComputeEMD (weight1 weight2 cost : PyVal) (r : Except PyErr ℚ) : Prop :=
  (∃ e, compute_emd_marshal weight1 weight2 cost = .error e ∧ r = .error e) ∨
  (∃ w1 w2 c d, compute_emd_marshal weight1 weight2 cost = .ok (w1, w2, c) ∧
    IsEMD w1 w2 c d ∧ r = .ok d)

/-- The element loop reads the requested range of a sequence of numeric
elements and converts it. -/
theorem readLoop_seq_ok (l : List PyVal) (msg : String)
    (hall : ∀ x ∈ l, isNum x = true) :
    ∀ (k i : ℕ), i + k ≤ l.length →
      readLoop (.seqObj l) msg i k = .ok (((l.drop i).take k).map pyFloatAsDouble)
  | 0, i, _ => by simp [readLoop]
  | k + 1, i, hik => by
    have hi : i < l.length := by omega
    have hitem : pySequenceGetItem (.seqObj l) i = some l[i] := by
      simp [pySequenceGetItem, List.getElem?_eq_getElem hi]
    have hnum : isNum l[i] = true := hall _ (List.getElem_mem hi)
    have hcond : (!pyFloatCheckO (some l[i]) && !pyIntCheckO (some l[i])) = false := by
      rcases Bool.or_eq_true_iff.mp hnum with h | h <;> simp [h]
    rw [readLoop, hitem]
    simp only [hcond, Bool.false_eq_true, if_false]
    rw [readLoop_seq_ok l msg hall k (i + 1) (by omega)]
    rw [List.drop_eq_getElem_cons hi, List.take_succ_cons, List.map_cons]
    rfl

/-- If some index in the scanned range fetches an item that fails the
float/int check — out of range, non-sequence object, or a non-numeric
element — the element loop raises its `TypeError`. -/
theorem readLoop_err (obj : PyVal) (msg : String) :
    ∀ (k i j : ℕ), i ≤ j → j < i + k →
      (pyFloatCheckO (pySequenceGetItem obj j) = false ∧
       pyIntCheckO (pySequenceGetItem obj j) = false) →
      readLoop obj msg i k = .error (.typeError msg)
  | 0, i, j, hij, hjk, _ => absurd hjk (by omega)
  | k + 1, i, j, hij, hjk, hbad => by
    rw [readLoop]
    by_cases hji : j = i
    · subst hji
      simp only [hbad.1, hbad.2, Bool.not_false, Bool.and_self, if_true]
    · cases hcond : (!pyFloatCheckO (pySequenceGetItem obj i) &&
          !pyIntCheckO (pySequenceGetItem obj i)) with
      | true => simp only [hcond, if_true]
      | false =>
        simp only [hcond, Bool.false_eq_true, if_false]
        rw [readLoop_err obj msg k (i + 1) j (by omega) (by omega) hbad]

/-- Every error the element loop can produce is a `TypeError` carrying the
message of that loop. -/
theorem readLoop_error_msg (obj : PyVal) (msg : String) :
    ∀ (k i : ℕ) (e : PyErr), readLoop obj msg i k = .error e → e = .typeError msg
  | 0, i, e => by simp [readLoop]
  | k + 1, i, e => by
    rw [readLoop]
    cases hcond : (!pyFloatCheckO (pySequenceGetItem obj i) &&
        !pyIntCheckO (pySequenceGetItem obj i)) with
    | true =>
      intro h
      simpa using h.symm
    | false =>
      simp only [Bool.false_eq_true, if_false]
      cases hrec : readLoop obj msg (i + 1) k with
      | ok rest => simp
      | error e2 =>
        intro h
        have : e = e2 := by simpa using h.symm
        exact this ▸ readLoop_error_msg obj msg k (i + 1) e2 hrec

/-- On two sequence arguments, `compute_emd_marshal` reduces to the three
element loops: the vacuous size self-comparisons (lines 42-50) never fire. -/
theorem compute_emd_marshal_seq (l1 l2 : List PyVal) (v3 : PyVal) :
    compute_emd_marshal (.seqObj l1) (.seqObj l2) v3 =
      match readLoop (.seqObj l1) "w1 should be a sequence of numbers" 0 l1.length with
      | .error e => .error e
      | .ok w1 =>
        match readLoop (.seqObj l2) "w2 should be a sequence of numbers" 0 l2.length with
        | .error e => .error e
        | .ok w2 =>
          match readLoop v3 "cost should be a sequence of numbers" 0
              (l1.length * l2.length) with
          | .error e => .error e
          | .ok c => .ok (w1, w2, c) := by
  simp only [compute_emd_marshal, pySequenceCheck, Bool.not_true, Bool.false_eq_true,
    if_false, ne_eq, not_true_eq_false, reduceIte]
  simp only [pySequenceSize]
  rw [← Nat.cast_mul, Int.toNat_natCast, Int.toNat_natCast, Int.toNat_natCast]

/-- On the 1-bin instance with unit weights, every feasible flow ships the
whole unit across the single cell, so the optimum is the single cost entry
(whatever its sign). -/
theorem isEMD_single (q : ℚ) : IsEMD [1] [1] [q] q := by
  have hflow : ∀ f : ℕ → ℕ → ℚ, Feasible [1] [1] f → f 0 0 = 1 := by
    intro f hf
    have := hf.total
    simpa [totalFlow] using this
  have hcost : ∀ f : ℕ → ℕ → ℚ, totalCost 1 1 [q] f = f 0 0 * q := by
    intro f
    simp [totalCost]
  constructor
  · refine ⟨fun _ _ => 1, ⟨?_, ?_, ?_, ?_⟩, ?_⟩
    · intro i j; norm_num
    · intro i hi
      simp at hi
      subst hi
      simp
    · intro j hj
      simp at hj
      subst hj
      simp
    · simp [totalFlow]
    · simp [totalCost]
  · intro f hf
    show q ≤ totalCost 1 1 [q] f
    rw [hcost f, hflow f hf, one_mul]

/-- On the instance `w1 = [2,0]`, `w2 = [0,2]`, the constraints force the
whole mass through the cell `(0,1)`: row 1 has no supply, column 0 takes no
demand, and the total flow is 2. -/
theorem feasible_cross_eq (f : ℕ → ℕ → ℚ)
    (hf : Feasible [2, 0] [0, 2] f) :
    f 0 0 = 0 ∧ f 0 1 = 2 ∧ f 1 0 = 0 ∧ f 1 1 = 0 := by
  have hrow1 := hf.rowSum 1 (by norm_num)
  have hcol0 := hf.colSum 0 (by norm_num)
  have htot := hf.total
  have n00 := hf.nonneg 0 0
  have n01 := hf.nonneg 0 1
  have n10 := hf.nonneg 1 0
  have n11 := hf.nonneg 1 1
  simp [Finset.sum_range_succ, totalFlow] at hrow1 hcol0 htot
  refine ⟨by linarith, by linarith, by linarith, by linarith⟩

/-- The forced cross-matching instance of spec scenario 3 has optimum 2. -/
theorem isEMD_cross : IsEMD [2, 0] [0, 2] [0, 1, 1, 0] 2 := by
  have hcost : ∀ f : ℕ → ℕ → ℚ,
      totalCost 2 2 [0, 1, 1, 0] f = f 0 1 + f 1 0 := by
    intro f
    simp [totalCost, Finset.sum_range_succ]
  constructor
  · refine ⟨fun i j => if i = 0 ∧ j = 1 then 2 else 0, ⟨?_, ?_, ?_, ?_⟩, ?_⟩
    · intro i j
      split <;> norm_num
    · intro i hi
      simp at hi
      interval_cases i <;> norm_num [Finset.sum_range_succ]
    · intro j hj
      simp at hj
      interval_cases j <;> norm_num [Finset.sum_range_succ]
    · simp [totalFlow, Finset.sum_range_succ]
    · show totalCost 2 2 [0, 1, 1, 0] (fun i j => if i = 0 ∧ j = 1 then 2 else 0) = 2
      rw [hcost]
      norm_num
  · intro f hf
    obtain ⟨h00, h01, h10, h11⟩ := feasible_cross_eq f hf
    show (2 : ℚ) ≤ totalCost 2 2 [0, 1, 1, 0] f
    rw [hcost f, h01, h10]
    norm_num

/-- When every consumed cost entry is non-negative, the optimal transport
cost is non-negative (each term of the objective is a product of
non-negatives; out-of-range entries read as the default 0). -/
theorem isEMD_nonneg_of_cost_nonneg (w1 w2 c : List ℚ)
    (hc : ∀ x ∈ c, 0 ≤ x) (d : ℚ) (hd : IsEMD w1 w2 c d) : 0 ≤ d := by
  obtain ⟨⟨f, hf, hcost⟩, _⟩ := hd
  rw [← hcost]
  apply Finset.sum_nonneg
  intro i _
  apply Finset.sum_nonneg
  intro j _
  apply mul_nonneg (hf.nonneg i j)
  by_cases hidx : i * w2.length + j < c.length
  · rw [List.getD_eq_getElem c 0 hidx]
    exact hc _ (List.getElem_mem hidx)
  · rw [List.getD_eq_default c 0 (by omega)]

/-- If every element of a list passes the numeric check, none fails it. -/
theorem all_num_of_not_bad (l : List PyVal) (h : ¬ ∃ x ∈ l, isNum x = false) :
    ∀ x ∈ l, isNum x = true := by
  intro x hx
  cases hb : isNum x with
  | true => rfl
  | false => exact absurd ⟨x, hx, hb⟩ h

/-- An element loop over a sequence containing a non-numeric element, scanned
at least up to that element, raises its `TypeError`. -/
theorem readLoop_seq_bad (l : List PyVal) (hex : ∃ x ∈ l, isNum x = false)
    (msg : String) (k : ℕ) (hk : l.length ≤ k) :
    readLoop (.seqObj l) msg 0 k = .error (.typeError msg) := by
  obtain ⟨x, hx, hxn⟩ := hex
  obtain ⟨j, hj, rfl⟩ := List.mem_iff_getElem.mp hx
  have hitem : pySequenceGetItem (.seqObj l) j = some l[j] := by
    simp [pySequenceGetItem, List.getElem?_eq_getElem hj]
  have hfi : pyFloatCheckO (some l[j]) = false ∧ pyIntCheckO (some l[j]) = false :=
    Bool.or_eq_false_iff.mp hxn
  exact readLoop_err (.seqObj l) msg k 0 j (by omega) (by omega) (hitem ▸ hfi)

/-- Claim C1 counterexample: with `weights1 = [1]`, `weights2 = [1]` and
`cost = [5, 7]` the cost length 2 differs from `n*m = 1`, yet `compute_emd`
raises no error at all: it marshals the first `n*m` cost entries and invokes
the solver on them. -/
theorem emd_c1_counterexample :
    ([PyVal.floatObj 5, PyVal.floatObj 7].length ≠
      [PyVal.floatObj 1].length * [PyVal.floatObj 1].length) ∧
    compute_emd_marshal (.seqObj [.floatObj 1]) (.seqObj [.floatObj 1])
      (.seqObj [.floatObj 5, .floatObj 7]) = .ok ([1], [1], [5]) :=
  ⟨by decide, rfl⟩

/-- Claim C1 (amended): `compute_emd` performs no length check on `cost`.
With numeric elements throughout, if `cost` has at least `n*m` elements the
solver is invoked on the first `n*m` of them (extra entries ignored, no
error); if `cost` is shorter, the failing element fetch inside the loop
raises `TypeError "cost should be a sequence of numbers"` — not a dedicated
length-mismatch error — before the solver is invoked. -/
theorem emd_c1_amended (l1 l2 lc : List PyVal)
    (h1 : ∀ x ∈ l1, isNum x = true) (h2 : ∀ x ∈ l2, isNum x = true)
    (h3 : ∀ x ∈ lc, isNum x = true) :
    (l1.length * l2.length ≤ lc.length →
      compute_emd_marshal (.seqObj l1) (.seqObj l2) (.seqObj lc) =
        .ok (l1.map pyFloatAsDouble, l2.map pyFloatAsDouble,
          (lc.take (l1.length * l2.length)).map pyFloatAsDouble)) ∧
    (lc.length < l1.length * l2.length →
      compute_emd_marshal (.seqObj l1) (.seqObj l2) (.seqObj lc) =
        .error (.typeError "cost should be a sequence of numbers")) := by
  have hw1 := readLoop_seq_ok l1 "w1 should be a sequence of numbers" h1 l1.length 0 (by omega)
  have hw2 := readLoop_seq_ok l2 "w2 should be a sequence of numbers" h2 l2.length 0 (by omega)
  simp only [List.drop_zero, List.take_length] at hw1 hw2
  constructor
  · intro hle
    have hcl := readLoop_seq_ok lc "cost should be a sequence of numbers" h3
      (l1.length * l2.length) 0 (by omega)
    simp only [List.drop_zero] at hcl
    rw [compute_emd_marshal_seq, hw1, hw2, hcl]
  · intro hlt
    have hnone : pySequenceGetItem (.seqObj lc) lc.length = none := by
      simp [pySequenceGetItem, List.getElem?_eq_none (le_refl lc.length)]
    have hcl := readLoop_err (.seqObj lc) "cost should be a sequence of numbers"
      (l1.length * l2.length) 0 lc.length (by omega) (by omega)
      (by rw [hnone]; exact ⟨rfl, rfl⟩)
    rw [compute_emd_marshal_seq, hw1, hw2, hcl]

/-- Claim C1 amended, witnessed at `weights1 = [1]`, `weights2 = [1]`,
`cost = [5, 7]` (a longer-than-`n*m` cost that is silently truncated). -/
theorem emd_c1_amended_witness :
    (∀ x ∈ [PyVal.floatObj 1], isNum x = true) ∧
    (∀ x ∈ [PyVal.floatObj 5, PyVal.floatObj 7], isNum x = true) ∧
    (([PyVal.floatObj 1].length * [PyVal.floatObj 1].length ≤
        [PyVal.floatObj 5, PyVal.floatObj 7].length →
      compute_emd_marshal (.seqObj [.floatObj 1]) (.seqObj [.floatObj 1])
        (.seqObj [.floatObj 5, .floatObj 7]) =
        .ok ([PyVal.floatObj 1].map pyFloatAsDouble,
          [PyVal.floatObj 1].map pyFloatAsDouble,
          ([PyVal.floatObj 5, PyVal.floatObj 7].take
            ([PyVal.floatObj 1].length * [PyVal.floatObj 1].length)).map pyFloatAsDouble)) ∧
    ([PyVal.floatObj 5, PyVal.floatObj 7].length <
        [PyVal.floatObj 1].length * [PyVal.floatObj 1].length →
      compute_emd_marshal (.seqObj [.floatObj 1]) (.seqObj [.floatObj 1])
        (.seqObj [.floatObj 5, .floatObj 7]) =
        .error (.typeError "cost should be a sequence of numbers"))) :=
  ⟨by decide, by decide,
    emd_c1_amended [.floatObj 1] [.floatObj 1] [.floatObj 5, .floatObj 7]
      (by decide) (by decide) (by decide)⟩

/-- Claim C2 counterexample: with both weight sequences empty (`n = m = 0`),
`compute_emd` raises no error: it marshals empty arrays and invokes the
solver `emd()` on them. -/
theorem emd_c2_counterexample :
    compute_emd_marshal (.seqObj []) (.seqObj []) (.seqObj []) =
      .ok ([], [], []) := rfl

/-- Claim C2 (amended): with `n = 0` or `m = 0` the shim performs no
emptiness check and raises no error: it marshals the weights (and an empty
cost array, since `n*m = 0` elements are read — the `cost` argument is not
even touched) and invokes the solver; rejecting empty distributions is left
to the solver side described by the spec. -/
theorem emd_c2_amended (l : List PyVal) (cost : PyVal)
    (h : ∀ x ∈ l, isNum x = true) :
    compute_emd_marshal (.seqObj []) (.seqObj l) cost =
      .ok ([], l.map pyFloatAsDouble, []) ∧
    compute_emd_marshal (.seqObj l) (.seqObj []) cost =
      .ok (l.map pyFloatAsDouble, [], []) := by
  have hl1 := readLoop_seq_ok l "w1 should be a sequence of numbers" h l.length 0 (by omega)
  have hl2 := readLoop_seq_ok l "w2 should be a sequence of numbers" h l.length 0 (by omega)
  simp only [List.drop_zero, List.take_length] at hl1 hl2
  constructor
  · rw [compute_emd_marshal_seq]
    simp only [List.length_nil, Nat.zero_mul, hl2]
    rfl
  · rw [compute_emd_marshal_seq]
    simp only [List.length_nil, Nat.mul_zero, hl1]
    rfl

/-- Claim C2 amended, witnessed at `weights = [1]` against an empty partner
and a non-sequence `cost` object. -/
theorem emd_c2_amended_witness :
    (∀ x ∈ [PyVal.floatObj 1], isNum x = true) ∧
    (compute_emd_marshal (.seqObj []) (.seqObj [.floatObj 1]) .noneObj =
      .ok ([], [PyVal.floatObj 1].map pyFloatAsDouble, []) ∧
    compute_emd_marshal (.seqObj [.floatObj 1]) (.seqObj []) .noneObj =
      .ok ([PyVal.floatObj 1].map pyFloatAsDouble, [], [])) :=
  ⟨by decide, emd_c2_amended [.floatObj 1] .noneObj (by decide)⟩

/-- Claim C3: `compute_emd` never applies `PySequence_Check` to `cost` and
never checks its length.  When the element fetch fails — index `1` of the
length-1 cost sequence, or any index of a non-sequence `cost` — the `NULL`
(`none`) result flows into the `PyFloat_Check` / `PyInt_Check` test, both
fail on it, and the error branch of the element loop fires with
`TypeError "cost should be a sequence of numbers"`; the solver is not
reached, but no sequence-ness or length diagnosis is ever made. -/
theorem emd_c3_no_cost_validation :
    pySequenceGetItem (.seqObj [.floatObj 0]) 1 = none ∧
    pyFloatCheckO none = false ∧
    pyIntCheckO none = false ∧
    compute_emd_marshal (.seqObj [.floatObj 1]) (.seqObj [.floatObj 1, .floatObj 1])
      (.seqObj [.floatObj 0]) =
      .error (.typeError "cost should be a sequence of numbers") ∧
    compute_emd_marshal (.seqObj [.floatObj 1]) (.seqObj [.floatObj 1]) .noneObj =
      .error (.typeError "cost should be a sequence of numbers") :=
  ⟨rfl, rfl, rfl, rfl, rfl⟩

/-- Claim C4: when every argument is a sequence, the cost length matches
`n*m`, and some element of `weights1`, `weights2` or `cost` is neither a
float nor an int object, `compute_emd` raises a `TypeError` whose message
names an argument that indeed contains a non-numeric element, and the solver
is never invoked (the shim returns an error, not marshalled arrays). -/
theorem emd_c4_typeerror (l1 l2 lc : List PyVal)
    (hlen : lc.length = l1.length * l2.length)
    (hbad : (∃ x ∈ l1, isNum x = false) ∨ (∃ x ∈ l2, isNum x = false) ∨
      (∃ x ∈ lc, isNum x = false)) :
    (compute_emd_marshal (.seqObj l1) (.seqObj l2) (.seqObj lc) =
        .error (.typeError "w1 should be a sequence of numbers") ∧
      ∃ x ∈ l1, isNum x = false) ∨
    (compute_emd_marshal (.seqObj l1) (.seqObj l2) (.seqObj lc) =
        .error (.typeError "w2 should be a sequence of numbers") ∧
      ∃ x ∈ l2, isNum x = false) ∨
    (compute_emd_marshal (.seqObj l1) (.seqObj l2) (.seqObj lc) =
        .error (.typeError "cost should be a sequence of numbers") ∧
      ∃ x ∈ lc, isNum x = false) := by
  by_cases hb1 : ∃ x ∈ l1, isNum x = false
  · left
    refine ⟨?_, hb1⟩
    rw [compute_emd_marshal_seq,
      readLoop_seq_bad l1 hb1 "w1 should be a sequence of numbers" l1.length (le_refl _)]
  · have h1 := all_num_of_not_bad l1 hb1
    have hw1 := readLoop_seq_ok l1 "w1 should be a sequence of numbers" h1 l1.length 0 (by omega)
    simp only [List.drop_zero, List.take_length] at hw1
    by_cases hb2 : ∃ x ∈ l2, isNum x = false
    · right; left
      refine ⟨?_, hb2⟩
      rw [compute_emd_marshal_seq, hw1,
        readLoop_seq_bad l2 hb2 "w2 should be a sequence of numbers" l2.length (le_refl _)]
    · have h2 := all_num_of_not_bad l2 hb2
      have hw2 := readLoop_seq_ok l2 "w2 should be a sequence of numbers" h2 l2.length 0 (by omega)
      simp only [List.drop_zero, List.take_length] at hw2
      have hb3 : ∃ x ∈ lc, isNum x = false := by
        rcases hbad with h | h | h
        · exact absurd h hb1
        · exact absurd h hb2
        · exact h
      right; right
      refine ⟨?_, hb3⟩
      rw [compute_emd_marshal_seq, hw1, hw2,
        readLoop_seq_bad lc hb3 "cost should be a sequence of numbers"
          (l1.length * l2.length) (by omega)]

/-- Claim C4, witnessed at `weights1 = [None]`, `weights2 = [1]`,
`cost = [5]`: the reported message names `w1`, the argument that failed. -/
theorem emd_c4_witness :
    ([PyVal.floatObj 5].length = [PyVal.noneObj].length * [PyVal.floatObj 1].length) ∧
    ((compute_emd_marshal (.seqObj [.noneObj]) (.seqObj [.floatObj 1])
        (.seqObj [.floatObj 5]) =
        .error (.typeError "w1 should be a sequence of numbers") ∧
      ∃ x ∈ [PyVal.noneObj], isNum x = false) ∨
    (compute_emd_marshal (.seqObj [.noneObj]) (.seqObj [.floatObj 1])
        (.seqObj [.floatObj 5]) =
        .error (.typeError "w2 should be a sequence of numbers") ∧
      ∃ x ∈ [PyVal.floatObj 1], isNum x = false) ∨
    (compute_emd_marshal (.seqObj [.noneObj]) (.seqObj [.floatObj 1])
        (.seqObj [.floatObj 5]) =
        .error (.typeError "cost should be a sequence of numbers") ∧
      ∃ x ∈ [PyVal.floatObj 5], isNum x = false)) :=
  ⟨by decide,
    emd_c4_typeerror [.noneObj] [.floatObj 1] [.floatObj 5] (by decide)
      (Or.inl ⟨.noneObj, List.mem_singleton.mpr rfl, rfl⟩)⟩

/-- Claim C5 counterexample: the shim accepts the negative cost entry `-5`
without any error, the spec-modelled solver computes the optimum `-5`, and
the call returns the negative scalar `-5` — not a non-negative scalar, and
not an error. -/
theorem emd_c5_counterexample :
    ComputeEMD (.seqObj [.floatObj 1]) (.seqObj [.floatObj 1])
      (.seqObj [.floatObj (-5)]) (.ok (-5)) ∧ (-5 : ℚ) < 0 :=
  ⟨Or.inr ⟨[1], [1], [-5], -5, rfl, isEMD_single (-5), rfl⟩, by norm_num⟩

/-- Claim C5 (amended): every call either raises an explicit error in the
shim or marshals three arrays for the solver — never anything else — and
whenever the consumed cost entries are all non-negative the solver result is
a non-negative scalar; with negative cost entries, which the shim does not
reject, the returned scalar can be negative. -/
theorem emd_c5_amended (v1 v2 v3 : PyVal) :
    (∃ e, compute_emd_marshal v1 v2 v3 = .error e) ∨
    (∃ w1 w2 c, compute_emd_marshal v1 v2 v3 = .ok (w1, w2, c) ∧
      ∀ d, IsEMD w1 w2 c d → (∀ x ∈ c, 0 ≤ x) → 0 ≤ d) := by
  cases h : compute_emd_marshal v1 v2 v3 with
  | error e => exact Or.inl ⟨e, rfl⟩
  | ok t =>
    obtain ⟨w1, w2, c⟩ := t
    exact Or.inr ⟨w1, w2, c, rfl,
      fun d hd hc => isEMD_nonneg_of_cost_nonneg w1 w2 c hc d hd⟩

/-- Claim C5 amended, witnessed at three non-sequence arguments (the error
side of the disjunction). -/
theorem emd_c5_amended_witness :
    (∃ e, compute_emd_marshal .noneObj .noneObj .noneObj = .error e) ∨
    (∃ w1 w2 c, compute_emd_marshal .noneObj .noneObj .noneObj = .ok (w1, w2, c) ∧
      ∀ d, IsEMD w1 w2 c d → (∀ x ∈ c, 0 ≤ x) → 0 ≤ d) :=
  emd_c5_amended .noneObj .noneObj .noneObj

/-- Claim C6: on valid inputs — sequences marshalled by the shim into weight
vectors of length at least 1 with non-negative entries and a cost array of
length `n*m` with non-negative entries — the spec-modelled solver optimum,
and hence the value returned by `compute_emd`, is non-negative. -/
theorem emd_c6_nonneg (v1 v2 v3 : PyVal) (w1 w2 c : List ℚ) (d : ℚ)
    (_hm : compute_emd_marshal v1 v2 v3 = .ok (w1, w2, c))
    (_hn : 1 ≤ w1.length) (_hm2 : 1 ≤ w2.length)
    (_hw1 : ∀ x ∈ w1, 0 ≤ x) (_hw2 : ∀ x ∈ w2, 0 ≤ x)
    (_hlen : c.length = w1.length * w2.length)
    (hc : ∀ x ∈ c, 0 ≤ x)
    (hd : IsEMD w1 w2 c d) : 0 ≤ d :=
  isEMD_nonneg_of_cost_nonneg w1 w2 c hc d hd

/-- Claim C6, witnessed at `weights1 = [1]`, `weights2 = [1]`, `cost = [5]`
with optimum `5`. -/
theorem emd_c6_witness :
    compute_emd_marshal (.seqObj [.floatObj 1]) (.seqObj [.floatObj 1])
      (.seqObj [.floatObj 5]) = .ok ([1], [1], [5]) ∧ (0 : ℚ) ≤ 5 :=
  ⟨rfl, emd_c6_nonneg (.seqObj [.floatObj 1]) (.seqObj [.floatObj 1])
    (.seqObj [.floatObj 5]) [1] [1] [5] 5 rfl (by decide) (by decide)
    (by decide) (by decide) (by decide) (by decide) (isEMD_single 5)⟩

/-- Claim C7: on `weights1 = [1]`, `weights2 = [1]`, `cost = [5]` the shim
marshals `([1], [1], [5])` and the call returns exactly `5`. -/
theorem emd_c7_scenario2 :
    ComputeEMD (.seqObj [.floatObj 1]) (.seqObj [.floatObj 1])
      (.seqObj [.floatObj 5]) (.ok 5) :=
  Or.inr ⟨[1], [1], [5], 5, rfl, isEMD_single 5, rfl⟩

/-- Claim C8: on `weights1 = [2,0]`, `weights2 = [0,2]`,
`cost = [0,1,1,0]` the feasibility constraints force all mass across the
off-diagonal cell `(0,1)` and the call returns exactly `2`. -/
theorem emd_c8_scenario3 :
    ComputeEMD (.seqObj [.intObj 2, .intObj 0]) (.seqObj [.intObj 0, .intObj 2])
      (.seqObj [.intObj 0, .intObj 1, .intObj 1, .intObj 0]) (.ok 2) :=
  Or.inr ⟨[2, 0], [0, 2], [0, 1, 1, 0], 2, rfl, isEMD_cross, rfl⟩

/-- Claim C9: the size self-comparisons of lines 42-50 compare
`PySequence_Size` of an argument against the variable that was just assigned
that same value, so the two `TypeError` branches `feature1 and weight1 must
be the same` and `feature2 and weight2 must be the same` are unreachable for
every input. -/
theorem emd_c9_vacuous (v1 v2 v3 : PyVal) :
    compute_emd_marshal v1 v2 v3 ≠
      .error (.typeError "feature1 and weight1 must be the same") ∧
    compute_emd_marshal v1 v2 v3 ≠
      .error (.typeError "feature2 and weight2 must be the same") := by
  have hstep : ∀ e, compute_emd_marshal v1 v2 v3 = .error e →
      e = .typeError "weight1 must be a sequence" ∨
      e = .typeError "weight2 must be a sequence" ∨
      e = .typeError "w1 should be a sequence of numbers" ∨
      e = .typeError "w2 should be a sequence of numbers" ∨
      e = .typeError "cost should be a sequence of numbers" := by
    intro e he
    cases v1 with
    | seqObj l1 =>
      cases v2 with
      | seqObj l2 =>
        rw [compute_emd_marshal_seq] at he
        cases hr1 : readLoop (.seqObj l1) "w1 should be a sequence of numbers"
            0 l1.length with
        | error e1 =>
          rw [hr1] at he
          have he1 : e = e1 := by simpa using he.symm
          subst he1
          exact Or.inr (Or.inr (Or.inl
            (readLoop_error_msg (.seqObj l1) _ l1.length 0 e hr1)))
        | ok w1 =>
          rw [hr1] at he
          cases hr2 : readLoop (.seqObj l2) "w2 should be a sequence of numbers"
              0 l2.length with
          | error e2 =>
            rw [hr2] at he
            have he2 : e = e2 := by simpa using he.symm
            subst he2
            exact Or.inr (Or.inr (Or.inr (Or.inl
              (readLoop_error_msg (.seqObj l2) _ l2.length 0 e hr2))))
          | ok w2 =>
            rw [hr2] at he
            cases hr3 : readLoop v3 "cost should be a sequence of numbers"
                0 (l1.length * l2.length) with
            | error e3 =>
              rw [hr3] at he
              have he3 : e = e3 := by simpa using he.symm
              subst he3
              exact Or.inr (Or.inr (Or.inr (Or.inr
                (readLoop_error_msg v3 _ (l1.length * l2.length) 0 e hr3))))
            | ok c =>
              rw [hr3] at he
              simp at he
      | intObj a =>
        simp [compute_emd_marshal, pySequenceCheck] at he
        exact Or.inr (Or.inl he.symm)
      | floatObj q =>
        simp [compute_emd_marshal, pySequenceCheck] at he
        exact Or.inr (Or.inl he.symm)
      | noneObj =>
        simp [compute_emd_marshal, pySequenceCheck] at he
        exact Or.inr (Or.inl he.symm)
    | intObj a =>
      simp [compute_emd_marshal, pySequenceCheck] at he
      exact Or.inl he.symm
    | floatObj q =>
      simp [compute_emd_marshal, pySequenceCheck] at he
      exact Or.inl he.symm
    | noneObj =>
      simp [compute_emd_marshal, pySequenceCheck] at he
      exact Or.inl he.symm
  constructor <;> intro h <;>
    rcases hstep _ h with h1 | h1 | h1 | h1 | h1 <;> exact absurd h1 (by decide)

/-- Claim C9, witnessed at three non-sequence arguments. -/
theorem emd_c9_witness :
    compute_emd_marshal .noneObj .noneObj .noneObj ≠
      .error (.typeError "feature1 and weight1 must be the same") ∧
    compute_emd_marshal .noneObj .noneObj .noneObj ≠
      .error (.typeError "feature2 and weight2 must be the same") :=
  emd_c9_vacuous .noneObj .noneObj .noneObj
